import Mathlib

/-!
Verification of the parameter-resolution core of the `caustics` repository.

Shallow embedding of:
  * `src/caustic/param.py` — the `Param` value cell (static / dynamic),
  * `src/caustics/cosmology.py` — `Cosmology` and `FlatLambdaCDM` methods
    decorated with the `unpack` resolution protocol,
and, modelled from the spec where the source file is not part of the
repository snapshot (`parametrized.py`, `packed.py`, `utils.py`,
`constants.py`): the `Parametrized` store, the `Packed` container, the
`unpack` decorator and the flat-vector packing schema.

Tensors are modelled elementwise over `ℚ` with shapes as `List ℕ`; the
torch broadcasting rule is modelled for the two cases the embedded code
exercises (equal shapes, and scalar against any shape).  Out-of-scope
numeric collaborators (the `interp1d` helper, real-valued powers and the
physical constants) are abstracted as fields of a context structure,
since the spec places the numeric formulas outside the core.
-/

namespace Caustics

/-- The error kinds of the spec's §7 (the Python source raises `ValueError`;
the spec names the same conditions `ShapeMismatch`, `SizeMismatch`,
`UnresolvedDynamicParam`, `UnknownParam`, `DuplicateName`).  `BroadcastMismatch`
models torch's runtime error on incompatible elementwise shapes. -/
inductive Err where
  | ShapeMismatch
  | SizeMismatch
  | UnresolvedDynamicParam
  | UnknownParam
  | DuplicateName
  | BroadcastMismatch
deriving DecidableEq, Repr

/-- A torch tensor, modelled as a shape together with its elements in
row-major order, plus device and dtype tags (opaque naturals: the claims
never depend on which device or dtype, only on whether `to` changes them). -/
structure Tensor where
  shape : List ℕ
  data : List ℚ
  device : ℕ
  dtype : ℕ
deriving DecidableEq, Repr

/-- Number of elements of a shape. -/
def shapeSize (s : List ℕ) : ℕ := s.foldr (fun a b => a * b) 1

/-- A scalar (0-dimensional) tensor on the default device/dtype. -/
def scalarT (q : ℚ) : Tensor := ⟨[], [q], 0, 0⟩

/-- `Tensor.to(device, dtype)`: converts device/dtype metadata, keeping
shape and (in this rational model) the element values.  A `none` argument
leaves the corresponding attribute unchanged, as in torch. -/
def Tensor.toDev (t : Tensor) (device dtype : Option ℕ) : Tensor :=
  ⟨t.shape, t.data, device.getD t.device, dtype.getD t.dtype⟩

/-- Tensor-tensor elementwise binary operation, modelled for the cases the
embedded code exercises: the operands must share device and dtype (torch
raises on a cross-device operation; dtype promotion is not needed by any
embedded computation), and the shapes must be equal or one operand must be
a scalar, which broadcasts.  Other shape pairs fail, as torch does for
incompatible shapes. -/
def ebop (f : ℚ → ℚ → ℚ) (a b : Tensor) : Except Err Tensor :=
  if a.device = b.device ∧ a.dtype = b.dtype then
    if a.shape = b.shape then
      Except.ok ⟨a.shape, List.zipWith f a.data b.data, a.device, a.dtype⟩
    else if a.shape = [] then
      Except.ok ⟨b.shape, b.data.map (fun x => f (a.data.headD 0) x), a.device, a.dtype⟩
    else if b.shape = [] then
      Except.ok ⟨a.shape, a.data.map (fun x => f x (b.data.headD 0)), a.device, a.dtype⟩
    else
      Except.error Err.BroadcastMismatch
  else
    Except.error Err.BroadcastMismatch

/-- Elementwise addition. -/
def tadd : Tensor → Tensor → Except Err Tensor := ebop (· + ·)

/-- Elementwise subtraction. -/
def tsub : Tensor → Tensor → Except Err Tensor := ebop (· - ·)

/-- Elementwise multiplication. -/
def tmul : Tensor → Tensor → Except Err Tensor := ebop (· * ·)

/-- Elementwise division (torch-like: total on the rational model,
division by zero yielding `0` where torch yields `inf`; no claim depends
on the value at a zero divisor). -/
def tdiv : Tensor → Tensor → Except Err Tensor := ebop (· / ·)

/-- Elementwise map by a scalar function: models every operation mixing a
Python number with a tensor (`1 - Om0`, `1 + z`, `** 3`, `** (1 / 3)`,
`const / h0`), which torch applies pointwise with no device constraint and
no shape change. -/
def tmap (f : ℚ → ℚ) (t : Tensor) : Tensor := ⟨t.shape, t.data.map f, t.device, t.dtype⟩

/-- Elementwise negation. -/
def tneg (t : Tensor) : Tensor := tmap (fun x => -x) t

/-! ## `Param` — embedded from `src/caustic/param.py` -/

/-- The state of a `Param`: the `_value` and `_shape` attributes.  Python's
`shape` argument may be an explicit `None`, so `_shape` is an
`Option (List ℕ)` (the constructor stores the argument verbatim). -/
structure Param where
  pvalue : Option Tensor
  pshape : Option (List ℕ)
deriving DecidableEq, Repr

/-- `Param.__init__(value=None, shape=())`, embedded from
`src/caustic/param.py` lines 15–27.  The Python default for `shape` is the
empty tuple `()`, i.e. `some []`; call sites pass the argument explicitly.
If `value is None` the given shape is stored as-is; otherwise the shape,
when not `None`, must equal `value.shape` (a `ValueError`, the spec's
`ShapeMismatch`, otherwise) and is stored as passed. -/
def Param.init (value : Option Tensor) (shape : Option (List ℕ)) : Except Err Param :=
  match value with
  | none => Except.ok ⟨none, shape⟩
  | some v =>
    match shape with
    | none => Except.ok ⟨some v, none⟩
    | some s =>
      if s = v.shape then Except.ok ⟨some v, some s⟩
      else Except.error Err.ShapeMismatch

/-- The `dynamic` property: `self._value is None`. -/
def Param.dynamic (p : Param) : Bool := p.pvalue.isNone

/-- The `static` property: `not self.dynamic`. -/
def Param.static (p : Param) : Bool := !p.dynamic

/-- The `value` property. -/
def Param.value (p : Param) : Option Tensor := p.pvalue

/-- The `shape` property. -/
def Param.shapeAttr (p : Param) : Option (List ℕ) := p.pshape

/-- `Param.to(device, dtype)`, embedded from `src/caustic/param.py`
lines 45–49: converts the stored value in place when present, otherwise
does nothing. -/
def Param.toDev (p : Param) (device dtype : Option ℕ) : Param :=
  match p.pvalue with
  | none => p
  | some v => ⟨some (v.toDev device dtype), p.pshape⟩

/-! ## Resolution protocol — modelled from the spec (§4.2–§4.4)

The files `parametrized.py` and `packed.py` are imported by
`src/caustics/cosmology.py` but are not part of the repository snapshot;
the `Parametrized` store, the `Packed` container and the `unpack`
decorator below are modelled from the spec's words. -/

/-- Association-list lookup by name (first match wins). -/
def findVal {α : Type} : List (String × α) → String → Option α
  | [], _ => none
  | (k, v) :: rest, n => if k = n then some v else findVal rest n

/-- Modelled from the spec: the `Packed` container (§3, §4.3) — an
immutable per-call mapping from a module's identity together with a
parameter name to the concrete tensor for that module's dynamic
parameter.  Module identity is an opaque natural number. -/
structure Packed where
  entries : List ((ℕ × String) × Tensor)
deriving DecidableEq, Repr

/-- Modelled from the spec: `Packed` lookup keyed by (module identity,
parameter name) (§4.3, §4.4 step 2c). -/
def Packed.lookup (p : Packed) (id : ℕ) (n : String) : Option Tensor :=
  (p.entries.find? (fun e => e.1.1 = id ∧ e.1.2 = n)).map (·.2)

/-- Modelled from the spec: the parameter-owning surface of a
`Parametrized` module (§3) — an identity plus the mapping from local
parameter name to owned `Param`.  (Children and tree-wide name
uniqueness are not needed by the claims settled here.) -/
structure PStore where
  id : ℕ
  params : List (String × Param)
deriving DecidableEq, Repr

/-- Look up an owned `Param` by local name. -/
def PStore.find (s : PStore) (n : String) : Option Param := findVal s.params n

/-- Modelled from the spec: `Parametrized.add_param(name, value, shape=())`
(§4.2) — constructs a `Param` from the given value and shape and registers
it under `name`; fails with `DuplicateName` on collision with an existing
parameter name. -/
def PStore.add_param (s : PStore) (n : String) (value : Option Tensor)
    (shape : Option (List ℕ)) : Except Err PStore :=
  match s.find n with
  | some _ => Except.error Err.DuplicateName
  | none => do
    let p ← Param.init value shape
    Except.ok ⟨s.id, s.params ++ [(n, p)]⟩

/-- An explicit keyword override: present with `some t` when the caller
passed a non-`None` tensor, present with `none` when the caller passed an
explicit `None` (which the protocol treats like an absent override). -/
def Overrides : Type := List (String × Option Tensor)

/-- The override actually in force for a name: a non-`None` value the
caller passed explicitly (spec §4.4 step 2a). -/
def ovLookup (ov : Overrides) (n : String) : Option Tensor :=
  match findVal ov n with
  | some (some t) => some t
  | _ => none

/-- Modelled from the spec: resolution of one declared parameter name
(§4.4 step 2): an explicit non-`None` override wins; else the module's
static value; else, for a dynamic parameter, the `Packed` entry keyed by
(identity, name), failing with `UnresolvedDynamicParam` when `params` is
absent or lacks the entry; a name the module does not own fails with
`UnknownParam`. -/
def resolveName (self : PStore) (ov : Overrides) (params : Option Packed)
    (n : String) : Except Err Tensor :=
  match ovLookup ov n with
  | some v => Except.ok v
  | none =>
    match self.find n with
    | none => Except.error Err.UnknownParam
    | some p =>
      match p.pvalue with
      | some v => Except.ok v
      | none =>
        match params with
        | none => Except.error Err.UnresolvedDynamicParam
        | some pk =>
          match pk.lookup self.id n with
          | some v => Except.ok v
          | none => Except.error Err.UnresolvedDynamicParam

/-- Modelled from the spec: resolution of every declared name in
declaration order (§4.4 step 2), producing the list of values bound into
the wrapped body. -/
def resolveAll (self : PStore) (ov : Overrides) (params : Option Packed) :
    List String → Except Err (List Tensor)
  | [] => Except.ok []
  | n :: rest => do
    let v ← resolveName self ov params n
    let vs ← resolveAll self ov params rest
    Except.ok (v :: vs)

/-- The keyword overrides left for `**kwargs` after the wrapper binds the
declared names: Python's calling convention removes every declared
keyword from the forwarded `**kwargs`. -/
def stripDeclared (names : List String) (ov : Overrides) : Overrides :=
  ov.filter (fun e => !names.contains e.1)

/-- Modelled from the spec: the `unpack` decorator (§4.4) — resolves each
declared name, then invokes the wrapped body with the resolved values,
the original `params`, and the remaining (non-declared) keyword
overrides. -/
def unpackCall {α : Type} (declared : List String) (self : PStore)
    (body : List Tensor → Option Packed → Overrides → Except Err α)
    (ov : Overrides) (params : Option Packed) : Except Err α := do
  let vs ← resolveAll self ov params declared
  body vs params (stripDeclared declared ov)

/-! ## `FlatLambdaCDM` — embedded from `src/caustics/cosmology.py` -/

/-- The out-of-scope numeric collaborators consumed by the distance
formulas, abstracted as the spec directs (§1, §6): the `interp1d` helper
from `caustics.utils`, a real-valued power function (`**` with non-integer
exponent has no rational closed form), and the constants `c_Mpc_s` and
`km_to_Mpc` from `caustics.constants` — none of these files is part of
the repository snapshot, and no claim depends on their values. -/
structure NumCtx where
  interp1d : Tensor → Tensor → Tensor → Tensor
  rpow : ℚ → ℚ → ℚ
  c_Mpc_s : ℚ
  km_to_Mpc : ℚ

/-- The state of a `FlatLambdaCDM` instance: its parameter store (holding
`h0`, `critical_density_0`, `Om0`) and the two interpolation grids set by
`__init__`. -/
structure FlatLambdaCDM where
  store : PStore
  xGrid : Tensor
  yGrid : Tensor
deriving DecidableEq, Repr

/-- The declared keyword parameter names of `FlatLambdaCDM.critical_density`,
`comoving_distance` and `transverse_comoving_distance` (besides `params`),
in declaration order. -/
def cdNames : List String := ["h0", "critical_density_0", "Om0"]

/-- `FlatLambdaCDM.__init__` (cosmology.py lines 295–327): registers the
three parameters via `add_param` (each therefore a scalar-shaped `Param`,
the spec's `add_param` default shape being the empty tuple) and stores the
interpolation grids.  A `none` argument makes the parameter dynamic. -/
def FlatLambdaCDM.init (id : ℕ) (h0 critical_density_0 Om0 : Option Tensor)
    (xGrid yGrid : Tensor) : Except Err FlatLambdaCDM := do
  let s0 : PStore := ⟨id, []⟩
  let s1 ← s0.add_param "h0" h0 (some [])
  let s2 ← s1.add_param "critical_density_0" critical_density_0 (some [])
  let s3 ← s2.add_param "Om0" Om0 (some [])
  Except.ok ⟨s3, xGrid, yGrid⟩

/-- `FlatLambdaCDM.hubble_distance(h0)` (cosmology.py lines 340–354):
`c_Mpc_s / (100 * km_to_Mpc) / h0` — a Python float divided by the tensor
`h0`, hence pointwise. -/
def FlatLambdaCDM.hubble_distance (ctx : NumCtx) (h0 : Tensor) : Tensor :=
  tmap (fun x => ctx.c_Mpc_s / (100 * ctx.km_to_Mpc) / x) h0

/-- `FlatLambdaCDM._comoving_distance_helper(x, params)` (cosmology.py
lines 385–406): `unpack`-decorated with no declared keyword parameters;
the body interpolates `x` on the stored grids (shape handling of
`atleast_1d`/`reshape` is folded into the abstract `interp1d`). -/
def FlatLambdaCDM.comovingDistanceHelper (ctx : NumCtx) (c : FlatLambdaCDM)
    (x : Tensor) (ov : Overrides) (params : Option Packed) : Except Err Tensor :=
  unpackCall [] c.store
    (fun _ _ _ => Except.ok (ctx.interp1d c.xGrid c.yGrid x)) ov params

/-- The body of `FlatLambdaCDM.critical_density` (cosmology.py lines
381–383), given the resolved `[h0, critical_density_0, Om0]`: computes
`Ode0 = 1 - Om0` and returns `critical_density_0 * (Om0 * (1 + z) ** 3 + Ode0)`
(`h0` is resolved but unused by the body). -/
def criticalDensityBody (z : Tensor) (vs : List Tensor) (_params : Option Packed)
    (_kwargs : Overrides) : Except Err Tensor :=
  match vs with
  | [_, critical_density_0, Om0] => do
    let Ode0 := tmap (fun x => 1 - x) Om0
    let cube := tmap (fun x => (1 + x) ^ 3) z
    let t1 ← tmul Om0 cube
    let t2 ← tadd t1 Ode0
    tmul critical_density_0 t2
  | _ => Except.error Err.UnknownParam

/-- `FlatLambdaCDM.critical_density(z, params, h0, critical_density_0, Om0)`
(cosmology.py lines 356–383): `unpack`-decorated around `criticalDensityBody`. -/
def FlatLambdaCDM.critical_density (c : FlatLambdaCDM) (z : Tensor)
    (ov : Overrides) (params : Option Packed) : Except Err Tensor :=
  unpackCall cdNames c.store (criticalDensityBody z) ov params

/-- The body of `FlatLambdaCDM.comoving_distance` (cosmology.py lines
434–439), given the resolved `[h0, critical_density_0, Om0]`: computes
`Ode0 = 1 - Om0`, `ratio = (Om0 / Ode0) ** (1 / 3)`, the Hubble distance,
two helper interpolations (forwarding `params` and `**kwargs` as the
source does), and `DH * (DC1z - DC) / (Om0 ** (1 / 3) * Ode0 ** (1 / 6))`. -/
def comovingBody (ctx : NumCtx) (c : FlatLambdaCDM) (z : Tensor) (vs : List Tensor)
    (params2 : Option Packed) (kwargs : Overrides) : Except Err Tensor :=
  match vs with
  | [h0, _, Om0] => do
    let Ode0 := tmap (fun x => 1 - x) Om0
    let r0 ← tdiv Om0 Ode0
    let ratio := tmap (fun x => ctx.rpow x (1 / 3)) r0
    let DH := FlatLambdaCDM.hubble_distance ctx h0
    let zp1 := tmap (fun x => 1 + x) z
    let arg1 ← tmul zp1 ratio
    let DC1z ← FlatLambdaCDM.comovingDistanceHelper ctx c arg1 kwargs params2
    let DC ← FlatLambdaCDM.comovingDistanceHelper ctx c ratio kwargs params2
    let num1 ← tsub DC1z DC
    let num2 ← tmul DH num1
    let den ← tmul (tmap (fun x => ctx.rpow x (1 / 3)) Om0)
      (tmap (fun x => ctx.rpow x (1 / 6)) Ode0)
    tdiv num2 den
  | _ => Except.error Err.UnknownParam

/-- `FlatLambdaCDM.comoving_distance(z, params, h0, critical_density_0, Om0)`
(cosmology.py lines 408–439): `unpack`-decorated around `comovingBody`. -/
def FlatLambdaCDM.comoving_distance (ctx : NumCtx) (c : FlatLambdaCDM) (z : Tensor)
    (ov : Overrides) (params : Option Packed) : Except Err Tensor :=
  unpackCall cdNames c.store (comovingBody ctx c z) ov params

/-- `FlatLambdaCDM.transverse_comoving_distance(z, params, h0,
critical_density_0, Om0)` (cosmology.py lines 441–452): `unpack`-decorated;
the body is exactly `self.comoving_distance(z, params, **kwargs)`. -/
def FlatLambdaCDM.transverse_comoving_distance (ctx : NumCtx) (c : FlatLambdaCDM)
    (z : Tensor) (ov : Overrides) (params : Option Packed) : Except Err Tensor :=
  unpackCall cdNames c.store
    (fun _ params2 kwargs => FlatLambdaCDM.comoving_distance ctx c z kwargs params2)
    ov params

/-- An abstract `Cosmology` instance (cosmology.py lines 40–287): the class
is abstract, with `comoving_distance` an `@abstractmethod`; a model is any
function of the redshift tensor and the `Packed` container, together with
the instance's parameter store. -/
structure CosmologyM where
  store : PStore
  comoving_distance : Tensor → Option Packed → Except Err Tensor

/-- `Cosmology.comoving_distance_z1z2(z1, z2, params)` (cosmology.py lines
134–155): `unpack`-decorated with no declared keyword parameters; the body
returns `self.comoving_distance(z2, params) - self.comoving_distance(z1, params)`
(Python evaluates the `z2` call first). -/
def CosmologyM.comoving_distance_z1z2 (c : CosmologyM) (z1 z2 : Tensor)
    (ov : Overrides) (params : Option Packed) : Except Err Tensor :=
  unpackCall [] c.store
    (fun _ params2 _ => do
      let d2 ← c.comoving_distance z2 params2
      let d1 ← c.comoving_distance z1 params2
      tsub d2 d1) ov params

/-! ## Flat-vector packing — modelled from the spec (§3 `Packed`, §4.2
`dynamic_params`/`pack`, §4.3 `from_flat`, §8 round-trip law)

The tree's `dynamic_params()` traversal yields the ordered list of
dynamic-parameter shapes — the layout.  `from_flat` slices a flat tensor
according to that layout. -/

/-- Total element count of a layout. -/
def totalSize (layout : List (List ℕ)) : ℕ := (layout.map shapeSize).sum

/-- Slice a row-major data list into consecutive tensors of the given
shapes, tagging each slice with the flat tensor's device and dtype (torch
slicing preserves both). -/
def unflattenData (dev dt : ℕ) : List (List ℕ) → List ℚ → List Tensor
  | [], _ => []
  | s :: rest, d =>
    ⟨s, d.take (shapeSize s), dev, dt⟩ :: unflattenData dev dt rest (d.drop (shapeSize s))

/-- Modelled from the spec: `Packed.from_flat(tree, flat_tensor)` (§4.3) —
slices the flat tensor according to the tree's `dynamic_params()` layout,
failing with `SizeMismatch` when the total element count disagrees. -/
def Packed.from_flat (layout : List (List ℕ)) (flat : Tensor) : Except Err (List Tensor) :=
  if flat.data.length = totalSize layout then
    Except.ok (unflattenData flat.device flat.dtype layout flat.data)
  else
    Except.error Err.SizeMismatch

/-- Concatenate per-parameter tensors into the flat one-dimensional vector
(the inverse schema of `Packed.from_flat`). -/
def flattenTensors (dev dt : ℕ) (ts : List Tensor) : Tensor :=
  ⟨[(ts.map Tensor.data).flatten.length], (ts.map Tensor.data).flatten, dev, dt⟩

/-- Lookup through an optional `Packed`: `none` when the container is
absent or lacks the entry (the two failure modes of §4.4 step 2c). -/
def packedLookup (ps : Option Packed) (id : ℕ) (n : String) : Option Tensor :=
  match ps with
  | none => none
  | some pk => pk.lookup id n

/-! ## General lemmas -/

@[simp]
lemma ok_bind {α β : Type} (a : α) (f : α → Except Err β) :
    (Except.ok a >>= f) = f a := rfl

@[simp]
lemma error_bind {α β : Type} (e : Err) (f : α → Except Err β) :
    ((Except.error e : Except Err α) >>= f) = Except.error e := rfl

lemma zipWith_sub_swap (l1 l2 : List ℚ) :
    List.zipWith (· - ·) l2 l1 = (List.zipWith (· - ·) l1 l2).map (fun x => -x) := by
  induction l1 generalizing l2 with
  | nil => cases l2 <;> simp
  | cons a t ih =>
    cases l2 with
    | nil => simp
    | cons b t2 =>
      simp only [List.zipWith_cons_cons, List.map_cons, List.cons.injEq]
      exact ⟨by ring, ih t2⟩

lemma zipWith_sub_self (l : List ℚ) :
    List.zipWith (· - ·) l l = l.map (fun _ => (0 : ℚ)) := by
  induction l with
  | nil => rfl
  | cons a t ih => simp [ih]

lemma map_sub_const_swap (q : ℚ) (l : List ℚ) :
    l.map (fun x => x - q) = (l.map (fun x => q - x)).map (fun x => -x) := by
  rw [List.map_map]
  refine List.map_congr_left (fun x _ => ?_)
  simp only [Function.comp_apply]
  ring

lemma map_const_sub_swap (q : ℚ) (l : List ℚ) :
    l.map (fun x => q - x) = (l.map (fun x => x - q)).map (fun x => -x) := by
  rw [List.map_map]
  refine List.map_congr_left (fun x _ => ?_)
  simp only [Function.comp_apply]
  ring

lemma ebop_scalar_left (f : ℚ → ℚ → ℚ) (a b : Tensor) (hd : a.device = b.device)
    (ht : a.dtype = b.dtype) (hs : a.shape = []) :
    ∃ r, ebop f a b = Except.ok r ∧ r.shape = b.shape ∧ r.device = a.device ∧
      r.dtype = a.dtype := by
  unfold ebop
  rw [if_pos ⟨hd, ht⟩]
  by_cases h1 : a.shape = b.shape
  · rw [if_pos h1]
    exact ⟨_, rfl, h1, rfl, rfl⟩
  · rw [if_neg h1, if_pos hs]
    exact ⟨_, rfl, rfl, rfl, rfl⟩

lemma ebop_scalar_right (f : ℚ → ℚ → ℚ) (a b : Tensor) (hd : a.device = b.device)
    (ht : a.dtype = b.dtype) (hs : b.shape = []) :
    ∃ r, ebop f a b = Except.ok r ∧ r.shape = a.shape ∧ r.device = a.device ∧
      r.dtype = a.dtype := by
  unfold ebop
  rw [if_pos ⟨hd, ht⟩]
  by_cases h1 : a.shape = b.shape
  · rw [if_pos h1]
    exact ⟨_, rfl, rfl, rfl, rfl⟩
  · have h2 : ¬a.shape = [] := fun hc => h1 (hc.trans hs.symm)
    rw [if_neg h1, if_neg h2, if_pos hs]
    exact ⟨_, rfl, rfl, rfl, rfl⟩

lemma tsub_antisym (a b t : Tensor) (h : tsub a b = Except.ok t) :
    tsub b a = Except.ok (tneg t) := by
  unfold tsub ebop at h ⊢
  by_cases hd : a.device = b.device ∧ a.dtype = b.dtype
  · rw [if_pos hd] at h
    rw [if_pos ⟨hd.1.symm, hd.2.symm⟩]
    by_cases h1 : a.shape = b.shape
    · rw [if_pos h1] at h
      rw [if_pos h1.symm]
      obtain rfl := Except.ok.inj h
      simp only [tneg, tmap, Except.ok.injEq, Tensor.mk.injEq]
      exact ⟨h1.symm, zipWith_sub_swap a.data b.data, hd.1.symm, hd.2.symm⟩
    · have h4 : ¬b.shape = a.shape := fun hc => h1 hc.symm
      rw [if_neg h1] at h
      rw [if_neg h4]
      by_cases h2 : a.shape = []
      · have h5 : ¬b.shape = [] := fun hc => h1 (h2.trans hc.symm)
        rw [if_pos h2] at h
        rw [if_neg h5, if_pos h2]
        obtain rfl := Except.ok.inj h
        simp only [tneg, tmap, Except.ok.injEq, Tensor.mk.injEq]
        exact ⟨trivial, map_sub_const_swap _ _, hd.1.symm, hd.2.symm⟩
      · by_cases h3 : b.shape = []
        · rw [if_neg h2, if_pos h3] at h
          rw [if_pos h3]
          obtain rfl := Except.ok.inj h
          simp only [tneg, tmap, Except.ok.injEq, Tensor.mk.injEq]
          exact ⟨trivial, map_const_sub_swap _ _, hd.1.symm, hd.2.symm⟩
        · rw [if_neg h2, if_neg h3] at h
          exact absurd h (by simp)
  · rw [if_neg hd] at h
    exact absurd h (by simp)

lemma tsub_self (d : Tensor) :
    tsub d d = Except.ok ⟨d.shape, d.data.map (fun _ => (0 : ℚ)), d.device, d.dtype⟩ := by
  unfold tsub ebop
  rw [if_pos ⟨rfl, rfl⟩, if_pos rfl, zipWith_sub_self]

/-! ## Claims about `Param` and the override rule -/

/-- A non-scalar test tensor, `tensor([1.0, 2.0])`: shape `(2,)`. -/
def t12 : Tensor := ⟨[2], [1, 2], 0, 0⟩

/-- Claim C4, counterexample: `Param(value=tensor([1.0,2.0]))` with the
`shape` argument left at its Python default `()` does not construct a
static `Param` of shape `(2,)` — `Param.__init__` compares the default
shape `()` against `value.shape == (2,)` and raises `ShapeMismatch`. -/
theorem C4_counterexample :
    Param.init (some t12) (some []) = Except.error Err.ShapeMismatch := rfl

/-- Claim C4 (amended): `Param(value=tensor([1.0,2.0]))` with the default
`shape=()` fails with `ShapeMismatch`; with the matching explicit
`shape=(2,)` it yields `static == True` and `shape == (2,)`; and
`Param(shape=(3,))` yields `dynamic == True` and `value is None`. -/
theorem C4_amended :
    Param.init (some t12) (some []) = Except.error Err.ShapeMismatch
    ∧ (∃ p, Param.init (some t12) (some [2]) = Except.ok p
        ∧ p.static = true ∧ p.shapeAttr = some [2])
    ∧ (∃ q, Param.init none (some [3]) = Except.ok q
        ∧ q.dynamic = true ∧ q.value = none) :=
  ⟨rfl, ⟨⟨some t12, some [2]⟩, rfl, rfl, rfl⟩, ⟨⟨none, some [3]⟩, rfl, rfl, rfl⟩⟩

/-- Claim C5: constructing `Param(value=T, shape=S)` with a shape tuple
`S ≠ T.shape` always fails with `ShapeMismatch`; with the matching tuple
the construction succeeds and retains exactly the concrete-value
representation (`static`, holding the given value). -/
theorem C5_shape_check (T : Tensor) (S : List ℕ) :
    (S ≠ T.shape → Param.init (some T) (some S) = Except.error Err.ShapeMismatch)
    ∧ (S = T.shape →
        ∃ p, Param.init (some T) (some S) = Except.ok p
          ∧ p.static = true ∧ p.value = some T ∧ p.shapeAttr = some S) := by
  constructor
  · intro h
    simp only [Param.init]
    rw [if_neg h]
  · intro h
    refine ⟨⟨some T, some S⟩, ?_, rfl, rfl, rfl⟩
    simp only [Param.init]
    rw [if_pos h]

/-- Claim C5, witness: a mismatching shape `(3,)` against
`tensor([1.0,2.0])`, and the matching shape `(2,)`. -/
theorem C5_witness :
    Param.init (some t12) (some [3]) = Except.error Err.ShapeMismatch
    ∧ ∃ p, Param.init (some t12) (some [2]) = Except.ok p
        ∧ p.static = true ∧ p.value = some t12 ∧ p.shapeAttr = some [2] :=
  ⟨(C5_shape_check t12 [3]).1 (by decide), (C5_shape_check t12 [2]).2 rfl⟩

/-- Claim C6, counterexample: passing `shape=None` explicitly alongside a
value succeeds and stores `shape = None`, so the invariant
`shape == value.shape` fails for that way of constructing a static
`Param` — the constructor only checks the shape when it is not `None`. -/
theorem C6_counterexample :
    Param.init (some t12) none = Except.ok ⟨some t12, none⟩
    ∧ Param.shapeAttr ⟨some t12, none⟩ ≠ some t12.shape :=
  ⟨rfl, by decide⟩

/-- Claim C6 (amended): for every successfully constructed `Param` whose
value is present and whose `shape` argument was an actual tuple (any
tuple, including the default `()`), the invariant `shape == value.shape`
holds; passing `shape=None` alongside a value instead stores `None`. -/
theorem C6_amended (T : Tensor) (S : List ℕ) (p : Param)
    (h : Param.init (some T) (some S) = Except.ok p) :
    p.shapeAttr = some T.shape ∧ p.value = some T := by
  simp only [Param.init] at h
  by_cases hs : S = T.shape
  · rw [if_pos hs] at h
    obtain rfl := Except.ok.inj h
    exact ⟨by simp [Param.shapeAttr, hs], rfl⟩
  · rw [if_neg hs] at h
    exact absurd h (by simp)

/-- Claim C6, witness. -/
theorem C6_amended_witness :
    Param.shapeAttr ⟨some t12, some [2]⟩ = some t12.shape
    ∧ Param.value ⟨some t12, some [2]⟩ = some t12 :=
  C6_amended t12 [2] ⟨some t12, some [2]⟩ rfl

/-- Claim C7: `Param.to(device, dtype)` converts the stored value in
place when a value is present, is a no-op (and not an error) when the
`Param` is dynamic, and in all cases leaves the `shape` attribute
unchanged. -/
theorem C7_to_conversion (p : Param) (d dt : Option ℕ) :
    (p.toDev d dt).shapeAttr = p.shapeAttr
    ∧ (p.dynamic = true → p.toDev d dt = p)
    ∧ (∀ v, p.value = some v →
        (p.toDev d dt).value = some (v.toDev d dt)) := by
  obtain ⟨val, sh⟩ := p
  cases val with
  | none =>
    refine ⟨rfl, fun _ => rfl, fun v hv => ?_⟩
    simp [Param.value] at hv
  | some v =>
    refine ⟨rfl, fun hd => ?_, fun w hw => ?_⟩
    · simp [Param.dynamic, Option.isNone] at hd
    · obtain rfl := Option.some.inj hw
      rfl

/-- Claim C7, witness: a dynamic `Param` is untouched, a static one has
its value converted. -/
theorem C7_witness :
    Param.toDev ⟨none, some [3]⟩ (some 1) none = ⟨none, some [3]⟩
    ∧ (Param.toDev ⟨some t12, none⟩ (some 1) none).value
        = some (t12.toDev (some 1) none) :=
  ⟨(C7_to_conversion ⟨none, some [3]⟩ (some 1) none).2.1 rfl,
   (C7_to_conversion ⟨some t12, none⟩ (some 1) none).2.2 t12 rfl⟩

/-- Claim C1: when the caller passes a declared parameter name explicitly
as a keyword override with a non-`None` value, resolution yields exactly
that value — regardless of the module's stored static value and of any
entry in the `Packed` container, so the wrapped body receives it
verbatim. -/
theorem C1_override_wins (s : PStore) (ov : Overrides) (ps : Option Packed)
    (n : String) (v : Tensor) (h : ovLookup ov n = some v) :
    resolveName s ov ps n = Except.ok v := by
  unfold resolveName
  rw [h]

/-- Claim C1, witness: the override value 9 beats both the stored static
value 5 and the `Packed` entry 7 for the same name. -/
theorem C1_witness :
    resolveName ⟨0, [("h0", ⟨some (scalarT 5), some []⟩)]⟩
      [("h0", some (scalarT 9))]
      (some ⟨[((0, "h0"), scalarT 7)]⟩) "h0" = Except.ok (scalarT 9) :=
  C1_override_wins _ _ _ _ _ rfl

/-! ## Resolution lemmas for the success and failure claims -/

/-- Resolution yields an explicit non-`None` override verbatim. -/
lemma resolveName_override (s : PStore) (ov : Overrides) (ps : Option Packed)
    (n : String) (v : Tensor) (h : ovLookup ov n = some v) :
    resolveName s ov ps n = Except.ok v := by
  unfold resolveName
  rw [h]

/-- Resolution yields the stored static value when no override is in
force. -/
lemma resolveName_static (s : PStore) (ov : Overrides) (ps : Option Packed)
    (n : String) (p : Param) (v : Tensor) (h1 : ovLookup ov n = none)
    (h2 : s.find n = some p) (h3 : p.pvalue = some v) :
    resolveName s ov ps n = Except.ok v := by
  simp only [resolveName, h1, h2, h3]

/-- Resolution of an owned dynamic parameter with no override and no
`Packed` entry fails with `UnresolvedDynamicParam`. -/
lemma resolveName_dyn_missing (s : PStore) (ov : Overrides) (ps : Option Packed)
    (n : String) (p : Param) (hfind : s.find n = some p) (hval : p.pvalue = none)
    (hov : ovLookup ov n = none) (hpk : packedLookup ps s.id n = none) :
    resolveName s ov ps n = Except.error Err.UnresolvedDynamicParam := by
  cases ps with
  | none => simp only [resolveName, hov, hfind, hval]
  | some pk =>
    have hl : pk.lookup s.id n = none := hpk
    simp only [resolveName, hov, hfind, hval, hl]

/-- When the module owns every declared name, the only resolution failure
is `UnresolvedDynamicParam`. -/
lemma resolveName_owned_err (s : PStore) (ov : Overrides) (ps : Option Packed)
    (n : String) (e : Err) (hn : (s.find n).isSome = true)
    (h : resolveName s ov ps n = Except.error e) :
    e = Err.UnresolvedDynamicParam := by
  cases hov : ovLookup ov n with
  | some v =>
    rw [resolveName_override s ov ps n v hov] at h
    exact absurd h (by simp)
  | none =>
    cases hf : s.find n with
    | none => rw [hf] at hn; simp at hn
    | some p =>
      cases hv : p.pvalue with
      | some v =>
        rw [resolveName_static s ov ps n p v hov hf hv] at h
        exact absurd h (by simp)
      | none =>
        cases ps with
        | none =>
          simp only [resolveName, hov, hf, hv, Except.error.injEq] at h
          exact h.symm
        | some pk =>
          cases hl : pk.lookup s.id n with
          | some v =>
            simp only [resolveName, hov, hf, hv, hl] at h
            exact absurd h (by simp)
          | none =>
            simp only [resolveName, hov, hf, hv, hl, Except.error.injEq] at h
            exact h.symm

/-- Resolution of a declared-name list fails with
`UnresolvedDynamicParam` when every name is owned and at least one owned
name is dynamic, unoverridden, and missing from the (possibly absent)
`Packed`. -/
lemma resolveAll_dyn_err (s : PStore) (ov : Overrides) (ps : Option Packed)
    (names : List String) (hall : ∀ n ∈ names, (s.find n).isSome = true)
    (hdyn : ∃ n ∈ names, ((s.find n).map Param.dynamic) = some true
      ∧ ovLookup ov n = none ∧ packedLookup ps s.id n = none) :
    resolveAll s ov ps names = Except.error Err.UnresolvedDynamicParam := by
  induction names with
  | nil => simp at hdyn
  | cons n rest ih =>
    cases hr : resolveName s ov ps n with
    | error e =>
      obtain rfl := resolveName_owned_err s ov ps n e
        (hall n (List.mem_cons_self n rest)) hr
      simp only [resolveAll, hr, error_bind]
    | ok v =>
      obtain ⟨m, hm, hdynm, hovm, hpkm⟩ := hdyn
      cases List.mem_cons.mp hm with
      | inl heq =>
        subst heq
        cases hf : s.find m with
        | none => rw [hf] at hdynm; simp at hdynm
        | some p =>
          rw [hf] at hdynm
          have hpv : p.pvalue = none := by
            simp only [Option.map_some', Option.some.injEq] at hdynm
            exact Option.isNone_iff_eq_none.mp hdynm
          rw [resolveName_dyn_missing s ov ps m p hf hpv hovm hpkm] at hr
          exact absurd hr (by simp)
      | inr hmrest =>
        have hrest := ih (fun k hk => hall k (List.mem_cons_of_mem n hk))
          ⟨m, hmrest, hdynm, hovm, hpkm⟩
        simp only [resolveAll, hr, ok_bind, hrest, error_bind]

/-- Resolution of a declared-name list succeeds when every name is either
overridden or static on the instance — in particular with no `Packed`
container at all. -/
lemma resolveAll_static_ok (s : PStore) (ov : Overrides) (ps : Option Packed)
    (names : List String)
    (hst : ∀ n ∈ names, ((s.find n).map Param.static) = some true) :
    ∃ vs, resolveAll s ov ps names = Except.ok vs := by
  induction names with
  | nil => exact ⟨[], rfl⟩
  | cons n rest ih =>
    obtain ⟨vs, hvs⟩ := ih (fun m hm => hst m (List.mem_cons_of_mem n hm))
    have hn := hst n (List.mem_cons_self n rest)
    cases hf : s.find n with
    | none => rw [hf] at hn; simp at hn
    | some p =>
      rw [hf] at hn
      simp only [Option.map_some', Option.some.injEq] at hn
      cases hv : p.pvalue with
      | none =>
        simp [Param.static, Param.dynamic, hv] at hn
      | some v =>
        cases hov : ovLookup ov n with
        | some w =>
          refine ⟨w :: vs, ?_⟩
          simp only [resolveAll, resolveName_override s ov ps n w hov, ok_bind,
            hvs]
        | none =>
          refine ⟨v :: vs, ?_⟩
          simp only [resolveAll, resolveName_static s ov ps n p v hov hf hv,
            ok_bind, hvs]

/-- The `critical_density` body succeeds whenever the resolved
`critical_density_0` and `Om0` are scalar tensors on `z`'s device and
dtype. -/
lemma criticalDensityBody_ok (z h c o : Tensor) (ps : Option Packed) (kw : Overrides)
    (hcs : c.shape = []) (hos : o.shape = [])
    (hcd : c.device = z.device) (hct : c.dtype = z.dtype)
    (hod : o.device = z.device) (hot : o.dtype = z.dtype) :
    ∃ t, criticalDensityBody z [h, c, o] ps kw = Except.ok t := by
  simp only [criticalDensityBody]
  obtain ⟨t1, ht1, ht1s, ht1d, ht1t⟩ :=
    ebop_scalar_left (· * ·) o (tmap (fun x => (1 + x) ^ 3) z)
      (by simp [tmap, hod]) (by simp [tmap, hot]) hos
  have ht1' : tmul o (tmap (fun x => (1 + x) ^ 3) z) = Except.ok t1 := ht1
  simp only [ht1', ok_bind]
  obtain ⟨t2, ht2, ht2s, ht2d, ht2t⟩ :=
    ebop_scalar_right (· + ·) t1 (tmap (fun x => 1 - x) o)
      (by rw [ht1d]; simp [tmap]) (by rw [ht1t]; simp [tmap])
      (by simp [tmap, hos])
  have ht2' : tadd t1 (tmap (fun x => 1 - x) o) = Except.ok t2 := ht2
  simp only [ht2', ok_bind]
  obtain ⟨t3, ht3, _, _, _⟩ :=
    ebop_scalar_left (· * ·) c t2
      (by rw [ht2d, ht1d]; simp [tmap, hod, hcd]) (by rw [ht2t, ht1t]; simp [tmap, hot, hct]) hcs
  exact ⟨t3, ht3⟩

/-- Claim C2: a decorated method whose declared parameters are all static
for the instance succeeds when called with `params = None` — no dummy
empty `Packed` is required.  In general, resolution succeeds whenever
every declared name is static on the instance (first conjunct); in
particular, a `FlatLambdaCDM` constructed with concrete scalar tensors
for `h0`, `critical_density_0` and `Om0` evaluates `critical_density`
to a value with `params = None` (second conjunct). -/
theorem C2_all_static_succeeds :
    (∀ (s : PStore) (ov : Overrides) (names : List String),
      (∀ n ∈ names, ((s.find n).map Param.static) = some true) →
      ∃ vs, resolveAll s ov none names = Except.ok vs)
    ∧ (∀ (i : ℕ) (hq cq oq : ℚ) (xg yg z : Tensor),
        z.device = 0 → z.dtype = 0 →
        ∃ cosm t,
          FlatLambdaCDM.init i (some (scalarT hq)) (some (scalarT cq))
            (some (scalarT oq)) xg yg = Except.ok cosm
          ∧ cosm.critical_density z [] none = Except.ok t) := by
  constructor
  · intro s ov names hst
    exact resolveAll_static_ok s ov none names hst
  · intro i hq cq oq xg yg z hdev hdt
    refine ⟨⟨⟨i, [("h0", ⟨some (scalarT hq), some []⟩),
        ("critical_density_0", ⟨some (scalarT cq), some []⟩),
        ("Om0", ⟨some (scalarT oq), some []⟩)]⟩, xg, yg⟩, ?_⟩
    have hres : resolveAll
        ⟨i, [("h0", ⟨some (scalarT hq), some []⟩),
          ("critical_density_0", ⟨some (scalarT cq), some []⟩),
          ("Om0", ⟨some (scalarT oq), some []⟩)]⟩ [] none cdNames
        = Except.ok [scalarT hq, scalarT cq, scalarT oq] := rfl
    obtain ⟨t, ht⟩ := criticalDensityBody_ok z (scalarT hq) (scalarT cq)
      (scalarT oq) none [] rfl rfl (by rw [hdev]; rfl) (by rw [hdt]; rfl)
      (by rw [hdev]; rfl) (by rw [hdt]; rfl)
    refine ⟨t, rfl, ?_⟩
    show unpackCall cdNames _ (criticalDensityBody z) [] none = Except.ok t
    unfold unpackCall
    rw [hres]
    exact ht

/-- Claim C2, witness: the default-like construction `h0 = 0.7`,
`critical_density_0 = 2`, `Om0 = 0.3` with a scalar redshift resolves and
evaluates with no `Packed` container. -/
theorem C2_witness :
    ∃ cosm t,
      FlatLambdaCDM.init 0 (some (scalarT (7 / 10))) (some (scalarT 2))
        (some (scalarT (3 / 10))) (scalarT 0) (scalarT 0) = Except.ok cosm
      ∧ cosm.critical_density (scalarT (1 / 2)) [] none = Except.ok t :=
  C2_all_static_succeeds.2 0 (7 / 10) 2 (3 / 10) (scalarT 0) (scalarT 0)
    (scalarT (1 / 2)) rfl rfl

/-- Claim C3: a decorated method declaring at least one parameter that is
dynamic on its instance, with no explicit override for it, fails with
`UnresolvedDynamicParam` when called with `params = None` or with a
`Packed` lacking the entry keyed by (the instance's identity, the name) —
provided the instance owns every declared name (otherwise `UnknownParam`
would fire first).  The conclusion holds for any wrapped body. -/
theorem C3_unresolved_dynamic {α : Type} (s : PStore) (ov : Overrides)
    (ps : Option Packed) (names : List String)
    (body : List Tensor → Option Packed → Overrides → Except Err α)
    (hall : ∀ n ∈ names, (s.find n).isSome = true)
    (hdyn : ∃ n ∈ names, ((s.find n).map Param.dynamic) = some true
      ∧ ovLookup ov n = none ∧ packedLookup ps s.id n = none) :
    unpackCall names s body ov ps = Except.error Err.UnresolvedDynamicParam := by
  unfold unpackCall
  rw [resolveAll_dyn_err s ov ps names hall hdyn]
  rfl

/-- A `FlatLambdaCDM` whose `h0` is dynamic (constructed with `h0=None`)
and whose other two parameters are static. -/
def dynCosm : FlatLambdaCDM :=
  ⟨⟨0, [("h0", ⟨none, some []⟩),
    ("critical_density_0", ⟨some (scalarT 2), some []⟩),
    ("Om0", ⟨some (scalarT (3 / 10)), some []⟩)]⟩, scalarT 0, scalarT 0⟩

/-- Claim C3, witness: `critical_density` on a `FlatLambdaCDM` with
dynamic `h0` fails with `UnresolvedDynamicParam` both for `params = None`
and for a `Packed` lacking the (identity 0, `h0`) entry. -/
theorem C3_witness :
    dynCosm.critical_density (scalarT 1) [] none
      = Except.error Err.UnresolvedDynamicParam
    ∧ dynCosm.critical_density (scalarT 1) [] (some ⟨[((1, "h0"), scalarT 7)]⟩)
      = Except.error Err.UnresolvedDynamicParam :=
  ⟨C3_unresolved_dynamic dynCosm.store [] none cdNames
      (criticalDensityBody (scalarT 1)) (by decide)
      ⟨"h0", by decide, rfl, rfl, rfl⟩,
   C3_unresolved_dynamic dynCosm.store [] (some ⟨[((1, "h0"), scalarT 7)]⟩)
      cdNames (criticalDensityBody (scalarT 1)) (by decide)
      ⟨"h0", by decide, rfl, rfl, rfl⟩⟩

/-! ## Flat-vector round trip -/

lemma totalSize_cons (s : List ℕ) (rest : List (List ℕ)) :
    totalSize (s :: rest) = shapeSize s + totalSize rest := by
  simp [totalSize]

/-- Slicing a data list of exactly the layout's total size yields slices
with the layout's shapes whose concatenation is the original list. -/
lemma unflatten_shapes_concat (dev dt : ℕ) (layout : List (List ℕ)) (d : List ℚ)
    (h : d.length = totalSize layout) :
    (unflattenData dev dt layout d).map Tensor.shape = layout
    ∧ ((unflattenData dev dt layout d).map Tensor.data).flatten = d := by
  induction layout generalizing d with
  | nil =>
    have hd : d = [] := List.eq_nil_of_length_eq_zero (by simpa [totalSize] using h)
    subst hd
    exact ⟨rfl, rfl⟩
  | cons s rest ih =>
    have hdrop : (d.drop (shapeSize s)).length = totalSize rest := by
      rw [List.length_drop, h, totalSize_cons]
      omega
    obtain ⟨ih1, ih2⟩ := ih (d.drop (shapeSize s)) hdrop
    constructor
    · simp only [unflattenData, List.map_cons, ih1]
    · simp only [unflattenData, List.map_cons, List.flatten_cons, ih2]
      exact List.take_append_drop _ d

/-- Unflattening the concatenation of well-formed tensors (data length
matching the shape, shared device and dtype) restores them exactly. -/
lemma unflatten_flatten (dev dt : ℕ) (ts : List Tensor)
    (hlen : ∀ t ∈ ts, t.data.length = shapeSize t.shape)
    (htags : ∀ t ∈ ts, t.device = dev ∧ t.dtype = dt) :
    unflattenData dev dt (ts.map Tensor.shape) ((ts.map Tensor.data).flatten) = ts := by
  induction ts with
  | nil => rfl
  | cons t rest ih =>
    have h1 : t.data.length = shapeSize t.shape := hlen t (List.mem_cons_self t rest)
    obtain ⟨hde, hdt⟩ := htags t (List.mem_cons_self t rest)
    have ih2 := ih (fun u hu => hlen u (List.mem_cons_of_mem t hu))
      (fun u hu => htags u (List.mem_cons_of_mem t hu))
    simp only [List.map_cons, List.flatten_cons, unflattenData]
    rw [← h1, List.take_left, List.drop_left, ih2]
    obtain ⟨sh, da, de, dtt⟩ := t
    simp only at hde hdt
    rw [hde, hdt]

/-- Claim C8: `Packed.from_flat` slices a size-matching flat tensor into
exactly the layout's shapes, reproducing the flat data in declared order
(first conjunct), and unflattening the flattening of per-parameter
tensors restores them elementwise — the round-trip law
`unflatten(flatten(x)) == x` (second conjunct). -/
theorem C8_round_trip :
    (∀ (layout : List (List ℕ)) (flat : Tensor),
      flat.data.length = totalSize layout →
      ∃ rs, Packed.from_flat layout flat = Except.ok rs
        ∧ rs.map Tensor.shape = layout
        ∧ (rs.map Tensor.data).flatten = flat.data)
    ∧ (∀ (dev dt : ℕ) (ts : List Tensor),
      (∀ t ∈ ts, t.data.length = shapeSize t.shape) →
      (∀ t ∈ ts, t.device = dev ∧ t.dtype = dt) →
      Packed.from_flat (ts.map Tensor.shape) (flattenTensors dev dt ts)
        = Except.ok ts) := by
  constructor
  · intro layout flat h
    obtain ⟨h1, h2⟩ := unflatten_shapes_concat flat.device flat.dtype layout flat.data h
    refine ⟨unflattenData flat.device flat.dtype layout flat.data, ?_, h1, h2⟩
    unfold Packed.from_flat
    rw [if_pos h]
  · intro dev dt ts hlen htags
    have hsz : ((ts.map Tensor.data).flatten).length = totalSize (ts.map Tensor.shape) := by
      rw [List.length_flatten, totalSize, List.map_map, List.map_map]
      congr 1
      exact List.map_congr_left (fun t hm => hlen t hm)
    unfold Packed.from_flat flattenTensors
    rw [if_pos hsz]
    rw [unflatten_flatten dev dt ts hlen htags]

/-- Claim C8, witness: a two-parameter layout `[(2,), ()]` with data
`[1, 2]` and `[3]` on device 5, dtype 7 round-trips. -/
theorem C8_witness :
    Packed.from_flat
      (([⟨[2], [1, 2], 5, 7⟩, ⟨[], [3], 5, 7⟩] : List Tensor).map Tensor.shape)
      (flattenTensors 5 7 [⟨[2], [1, 2], 5, 7⟩, ⟨[], [3], 5, 7⟩])
      = Except.ok [⟨[2], [1, 2], 5, 7⟩, ⟨[], [3], 5, 7⟩] :=
  C8_round_trip.2 5 7 [⟨[2], [1, 2], 5, 7⟩, ⟨[], [3], 5, 7⟩]
    (by decide) (by decide)

/-! ## Transverse comoving distance and the distance difference -/

/-- The helper's `unpack` wrapper declares no keyword parameters, so the
helper ignores the forwarded overrides and the container and returns the
interpolation directly. -/
lemma helper_const (ctx : NumCtx) (c : FlatLambdaCDM) (x : Tensor)
    (kw : Overrides) (ps : Option Packed) :
    FlatLambdaCDM.comovingDistanceHelper ctx c x kw ps
      = Except.ok (ctx.interp1d c.xGrid c.yGrid x) := rfl

/-- The `comoving_distance` body does not depend on the forwarded
`**kwargs` (its only use is the helper, which ignores them). -/
lemma comovingBody_kwargs (ctx : NumCtx) (c : FlatLambdaCDM) (z : Tensor)
    (vs : List Tensor) (ps : Option Packed) (k1 k2 : Overrides) :
    comovingBody ctx c z vs ps k1 = comovingBody ctx c z vs ps k2 := by
  cases vs with
  | nil => rfl
  | cons a l1 =>
    cases l1 with
    | nil => rfl
    | cons b l2 =>
      cases l2 with
      | nil => rfl
      | cons e l3 =>
        cases l3 with
        | nil => simp only [comovingBody, helper_const]
        | cons g l4 => rfl

/-- Entries whose name is among the declared names are all removed by
`stripDeclared`. -/
lemma findVal_strip_none {α : Type} (l : List (String × α)) (names : List String)
    (n : String) (hn : n ∈ names) :
    findVal (l.filter (fun e => !names.contains e.1)) n = none := by
  induction l with
  | nil => rfl
  | cons e rest ih =>
    rw [List.filter_cons]
    by_cases hp : (!names.contains e.1) = true
    · rw [if_pos hp]
      have hne : ¬e.1 = n := by
        intro hq
        rw [hq] at hp
        simp at hp
        exact hp hn
      unfold findVal
      rw [if_neg hne]
      exact ih
    · rw [if_neg hp]
      exact ih

/-- A declared name has no override in force after `stripDeclared`. -/
lemma ovLookup_strip_mem (names : List String) (ov : Overrides) (n : String)
    (hn : n ∈ names) :
    ovLookup (stripDeclared names ov) n = none := by
  unfold ovLookup stripDeclared
  rw [findVal_strip_none ov names n hn]

/-- Resolution of one name depends on the overrides only through the
override in force for that name. -/
lemma resolveName_ov_congr (s : PStore) (ps : Option Packed) (n : String)
    (ov1 ov2 : Overrides) (h : ovLookup ov1 n = ovLookup ov2 n) :
    resolveName s ov1 ps n = resolveName s ov2 ps n := by
  unfold resolveName
  rw [h]

/-- Resolution of a name list depends on the overrides only through the
overrides in force for those names. -/
lemma resolveAll_ov_congr (s : PStore) (ps : Option Packed) (names : List String)
    (ov1 ov2 : Overrides)
    (h : ∀ n ∈ names, ovLookup ov1 n = ovLookup ov2 n) :
    resolveAll s ov1 ps names = resolveAll s ov2 ps names := by
  induction names with
  | nil => rfl
  | cons n rest ih =>
    simp only [resolveAll]
    rw [resolveName_ov_congr s ps n ov1 ov2 (h n (List.mem_cons_self n rest)),
      ih (fun m hm => h m (List.mem_cons_of_mem n hm))]

/-- Claim C9: for every context, instance, redshift tensor, container and
caller overrides that do not touch the declared parameter names (the
forwarded-override situation), `transverse_comoving_distance` returns
exactly what `comoving_distance` returns — including the error cases,
since both resolve the same declared names against the same container. -/
theorem C9_transverse_eq_comoving (ctx : NumCtx) (c : FlatLambdaCDM) (z : Tensor)
    (ov : Overrides) (ps : Option Packed)
    (h : ∀ n ∈ cdNames, ovLookup ov n = none) :
    FlatLambdaCDM.transverse_comoving_distance ctx c z ov ps
      = FlatLambdaCDM.comoving_distance ctx c z ov ps := by
  unfold FlatLambdaCDM.transverse_comoving_distance FlatLambdaCDM.comoving_distance
    unpackCall
  have hcong : ∀ n ∈ cdNames,
      ovLookup (stripDeclared cdNames ov) n = ovLookup ov n := by
    intro n hn
    rw [ovLookup_strip_mem cdNames ov n hn, h n hn]
  cases hr : resolveAll c.store ov ps cdNames with
  | error e => simp only [hr, error_bind]
  | ok vs =>
    have hr2 : resolveAll c.store (stripDeclared cdNames ov) ps cdNames
        = Except.ok vs := by
      rw [resolveAll_ov_congr c.store ps cdNames (stripDeclared cdNames ov) ov hcong]
      exact hr
    simp only [hr, hr2, ok_bind]
    exact comovingBody_kwargs ctx c z vs ps
      (stripDeclared cdNames (stripDeclared cdNames ov)) (stripDeclared cdNames ov)

/-- A concrete numeric context for witnesses: identity interpolation and
power, unit constants. -/
def ctxW : NumCtx := ⟨fun _ _ x => x, fun x _ => x, 1, 1⟩

/-- A fully static `FlatLambdaCDM` for witnesses. -/
def cosmW : FlatLambdaCDM :=
  ⟨⟨0, [("h0", ⟨some (scalarT (7 / 10)), some []⟩),
    ("critical_density_0", ⟨some (scalarT 2), some []⟩),
    ("Om0", ⟨some (scalarT (3 / 10)), some []⟩)]⟩, scalarT 0, scalarT 0⟩

/-- Claim C9, witness: with a forwarded unknown override, the two
distances agree on a concrete instance. -/
theorem C9_witness :
    FlatLambdaCDM.transverse_comoving_distance ctxW cosmW (scalarT 1)
      [("extra", some (scalarT 1))] none
      = FlatLambdaCDM.comoving_distance ctxW cosmW (scalarT 1)
        [("extra", some (scalarT 1))] none :=
  C9_transverse_eq_comoving ctxW cosmW (scalarT 1)
    [("extra", some (scalarT 1))] none (by decide)

/-- Claim C10: `comoving_distance_z1z2(z1, z2, params)` equals
`comoving_distance(z2, params) - comoving_distance(z1, params)` (first
conjunct); consequently it is antisymmetric — swapping the two redshifts
negates the result (second conjunct) — and evaluates to the zero tensor
when the two redshifts are equal (third conjunct). -/
theorem C10_z1z2_difference (c : CosmologyM) (z1 z2 : Tensor) (ov : Overrides)
    (ps : Option Packed) :
    (c.comoving_distance_z1z2 z1 z2 ov ps
      = (c.comoving_distance z2 ps >>= fun d2 =>
          c.comoving_distance z1 ps >>= fun d1 => tsub d2 d1))
    ∧ (∀ t, c.comoving_distance_z1z2 z1 z2 ov ps = Except.ok t →
        c.comoving_distance_z1z2 z2 z1 ov ps = Except.ok (tneg t))
    ∧ (∀ d, c.comoving_distance z1 ps = Except.ok d → z2 = z1 →
        c.comoving_distance_z1z2 z1 z2 ov ps
          = Except.ok ⟨d.shape, d.data.map (fun _ => 0), d.device, d.dtype⟩) := by
  refine ⟨rfl, fun t h => ?_, fun d hd hz => ?_⟩
  · have h' : (c.comoving_distance z2 ps >>= fun d2 =>
        c.comoving_distance z1 ps >>= fun d1 => tsub d2 d1) = Except.ok t := h
    show (c.comoving_distance z1 ps >>= fun d2 =>
      c.comoving_distance z2 ps >>= fun d1 => tsub d2 d1) = Except.ok (tneg t)
    cases hd2 : c.comoving_distance z2 ps with
    | error e =>
      rw [hd2] at h'
      simp at h'
    | ok d2 =>
      rw [hd2] at h'
      simp only [ok_bind] at h'
      cases hd1 : c.comoving_distance z1 ps with
      | error e =>
        rw [hd1] at h'
        simp at h'
      | ok d1 =>
        rw [hd1] at h'
        simp only [ok_bind] at h'
        simp only [ok_bind]
        exact tsub_antisym d2 d1 t h'
  · subst hz
    show (c.comoving_distance z2 ps >>= fun d2 =>
      c.comoving_distance z2 ps >>= fun d1 => tsub d2 d1)
      = Except.ok ⟨d.shape, d.data.map (fun _ => 0), d.device, d.dtype⟩
    rw [hd]
    simp only [ok_bind]
    exact tsub_self d

/-- A concrete abstract cosmology for the witness: `comoving_distance`
returns the redshift tensor itself. -/
def cosmId : CosmologyM := ⟨⟨0, []⟩, fun z _ => Except.ok z⟩

/-- Claim C10, witness: with distances 1 and 3, the difference is 2 and
swapping the redshifts negates it. -/
theorem C10_witness :
    cosmId.comoving_distance_z1z2 (scalarT 3) (scalarT 1) [] none
      = Except.ok (tneg ⟨[], [(3 : ℚ) - 1], 0, 0⟩) :=
  (C10_z1z2_difference cosmId (scalarT 1) (scalarT 3) [] none).2.1
    ⟨[], [(3 : ℚ) - 1], 0, 0⟩ rfl

end Caustics
